import Mathlib

/-!
Verification of the data-access core of the curly-sniffle record manager
(`src/common/db.py`, `src/common/search_engine.py`, `src/common/main_gui.py`).

The Python modules are shallowly embedded below: pure string/list
computations become Lean functions, the file-based lock coordinator becomes
a small instruction machine over an explicit filesystem state, and the
regex-engine calls of the search path are abstracted into match data that
is passed to the embedded functions (the regular expressions themselves are
external library calls).  Fallible Python code (uncaught `KeyError` /
`IndexError`) is embedded with `Option`, `none` marking a propagated
exception.
-/

set_option maxHeartbeats 1000000
set_option maxRecDepth 4000

namespace CurlySniffle

/-!
## Lock coordinator (src/common/db.py, lines 18-50 and 149-171)

`acquire_write_lock` busy-waits while `write.lock` exists, creates it,
yields, and in its `finally` block removes it when still present.
`acquire_read_lock` busy-waits the same gate and appends a byte to
`read.lock` on entry and on exit.  The filesystem state relevant to these
two context managers is the existence of the write marker and the number of
bytes ever appended to the read marker (the read marker is only ever
appended to, never removed, by this code).
-/

structure LockFS where
  writeMarker : Bool
  readAppends : Nat
deriving DecidableEq, Repr

/-- The primitive filesystem steps performed by the two lock context
managers of db.py.  `waitNoWrite` is one successful exit of the busy-wait
loop (`while os.path.exists(WRITE_LOCK_FILE): sleep`); it can only fire
when the write marker is absent.  `runBody` stands for the wrapped
statement (the `yield`). -/
inductive LockInstr where
  | waitNoWrite
  | createWrite
  | removeWriteIfPresent
  | appendRead
  | runBody
deriving DecidableEq, Repr

/-- One instruction against the lock filesystem; `none` means the
instruction is blocked (the busy-wait loop cannot exit). -/
def stepInstr (s : LockFS) : LockInstr → Option LockFS
  | .waitNoWrite => if s.writeMarker then none else some s
  | .createWrite => some { s with writeMarker := true }
  | .removeWriteIfPresent =>
      some (if s.writeMarker then { s with writeMarker := false } else s)
  | .appendRead => some { s with readAppends := s.readAppends + 1 }
  | .runBody => some s

/-- db.py lines 25-35, `acquire_write_lock` wrapping a statement that either
returns normally or raises: wait out the marker, create it, run the body
(an exception skips the rest of the body), and in `finally` remove the
marker when present.  The `finally` clause runs on both exit paths. -/
def writeLockWith (raises : Bool) : List LockInstr :=
  [.waitNoWrite, .createWrite] ++ (if raises then [] else [.runBody]) ++ [.removeWriteIfPresent]

/-- The normal-return write-lock scope. -/
def writeLockScope : List LockInstr := writeLockWith false

/-- db.py lines 38-49, `acquire_read_lock`: wait out the write marker,
append a byte to the read marker, run the body, append again on exit.  It
never touches the write marker.  (This helper is defined in db.py but the
facade's query path does not call it.) -/
def readLockScope : List LockInstr := [.waitNoWrite, .appendRead, .runBody, .appendRead]

/-- db.py lines 149-153: `DatabaseAccess._query`, the read path used by
every query/search, wraps its cursor work in `acquire_write_lock()` -- not
in `acquire_read_lock()`. -/
def queryLockScope : List LockInstr := writeLockScope

/-- Run one process's instruction list to completion in isolation; `none`
when some instruction blocks forever (nobody else can unblock it). -/
def runSolo : LockFS → List LockInstr → Option LockFS
  | s, [] => some s
  | s, i :: rest =>
    match stepInstr s i with
    | none => none
    | some t => runSolo t rest

/-- Two concurrent processes sharing the lock filesystem. -/
structure Config2 where
  fs : LockFS
  p1 : List LockInstr
  p2 : List LockInstr
deriving DecidableEq, Repr

/-- Attempt one step of process 1 (`second = false`) or process 2
(`second = true`); a blocked or finished process leaves the configuration
unchanged (it stays in its busy-wait loop). -/
def stepProc (c : Config2) (second : Bool) : Config2 :=
  if second then
    match c.p2 with
    | [] => c
    | i :: rest =>
      match stepInstr c.fs i with
      | none => c
      | some fs => { c with fs := fs, p2 := rest }
  else
    match c.p1 with
    | [] => c
    | i :: rest =>
      match stepInstr c.fs i with
      | none => c
      | some fs => { c with fs := fs, p1 := rest }

/-- Run a schedule of interleaved steps. -/
def runSched (c : Config2) : List Bool → Config2
  | [] => c
  | b :: rest => runSched (stepProc c b) rest

/-- Two facade reads (`_query` calls) started concurrently on a free
filesystem. -/
def twoQueries : Config2 := ⟨⟨false, 0⟩, queryLockScope, queryLockScope⟩

/-!
## The REGEXP predicate (src/common/db.py, lines 118-134)

`_regexp` dispatches on the shape of the pattern and then calls one of
three `re` library operations; the library calls are abstracted as an
engine whose operations return `none` when they raise.  The value argument
is modelled after its coercion to a display string (`str(value)`), with
`none` for SQL NULL.
-/

/-- The abstracted `re` library: full-string match, case-insensitive
search, plain search.  A `none` result models a raised exception. -/
structure RegexEngine where
  fullmatchTest : String → String → Option Bool
  searchCITest : String → String → Option Bool
  searchTest : String → String → Option Bool

/-- Python `str.removeprefix`: drop `p` from the front when present. -/
def removePre (p s : String) : String :=
  if p.isPrefixOf s then s.drop p.length else s

/-- Python `str.removesuffix`: drop `p` from the back when present. -/
def removeSuf (p s : String) : String :=
  if s.endsWith p then s.dropRight p.length else s

/-- A single-quote character as a string (the quote wrapper tested by
`_regexp`). -/
def quoteStr : String := String.mk [Char.ofNat 39]

def dotStar : String := ".*"

/-- db.py lines 118-134, `_regexp(pattern, value)`: `None` values are
false; a `.*`-wrapped pattern is unwrapped and then either full-matched
(when additionally single-quote-wrapped) or searched case-insensitively; a
single-quote-wrapped pattern is full-matched; anything else is plainly
searched.  The surrounding `try/except` turns any raised exception into
`False`. -/
def regexpImpl (E : RegexEngine) (p : String) (v : Option String) : Bool :=
  match v with
  | none => false
  | some s =>
    (if p.startsWith dotStar && p.endsWith dotStar then
      let np := removeSuf dotStar (removePre dotStar p)
      if np.startsWith quoteStr && np.endsWith quoteStr then
        E.fullmatchTest (removeSuf quoteStr (removePre quoteStr np)) s
      else
        E.searchCITest np s
    else if p.startsWith quoteStr && p.endsWith quoteStr then
      E.fullmatchTest (removeSuf quoteStr (removePre quoteStr p)) s
    else
      E.searchTest p s).getD false

/-- Pattern `p` is wrapped by `w` on both ends. -/
def wrappedBy (w p : String) : Bool := p.startsWith w && p.endsWith w

/-- Strip one wrapper layer (front then back, each only when present). -/
def unwrap (w p : String) : String := removeSuf w (removePre w p)

/-- Modelled from the spec: the claimed REGEXP behaviour, written as a
disjoint four-way case analysis in the order of the specification text --
null value yields false; a `.*`-wrapped pattern whose unwrapped remainder
is quote-wrapped is full-matched on the inner pattern; a `.*`-wrapped
pattern otherwise is searched case-insensitively; a quote-wrapped pattern
is full-matched; otherwise a plain search; any exception yields no
match. -/
def regexpDescribed (E : RegexEngine) (p : String) (v : Option String) : Bool :=
  match v with
  | none => false
  | some s =>
    let r : Option Bool :=
      if wrappedBy dotStar p then
        if wrappedBy quoteStr (unwrap dotStar p) then
          E.fullmatchTest (unwrap quoteStr (unwrap dotStar p)) s
        else
          E.searchCITest (unwrap dotStar p) s
      else if wrappedBy quoteStr p then
        E.fullmatchTest (unwrap quoteStr p) s
      else
        E.searchTest p s
    r.getD false

/-!
## Change log and notifier (src/common/db.py lines 173-211,
src/common/main_gui.py lines 19-35)

`_get_affected_tables` extracts the target table of INSERT/UPDATE/DELETE
statements with three regexes; a statement is modelled by the three
extracted targets.  `_log_changes` appends one single-character marker per
affected logical record group (comment in db.py line 204: tab for the
Cases family, newline for Persons, space for Documents).
`DataNotifier.poll_for_changes` keeps a private byte offset into the log
file, reads from there to end-of-file, advances the offset, and emits the
set of distinct characters read when anything was read.
-/

/-- The table names captured by the INSERT INTO / UPDATE / DELETE FROM
regexes of `_get_affected_tables` for one statement. -/
structure SqlTargets where
  insertInto : Option String
  updateTable : Option String
  deleteFrom : Option String
deriving DecidableEq, Repr

/-- db.py lines 173-197: the set of affected tables of a statement. -/
def getAffectedTables (q : SqlTargets) : List String :=
  q.insertInto.toList ++ q.updateTable.toList ++ q.deleteFrom.toList

def casesFamily : List String := ["Cases", "CasePeople", "CaseDocuments"]

def personsFamily : List String := ["Persons"]

def documentsFamily : List String := ["Documents"]

def intersects (a b : List String) : Bool := a.any (fun t => b.contains t)

/-- db.py lines 199-211, `_log_changes`: for each of the three logical
groups, in the fixed order tab/newline/space, append that group's marker
when the statement's affected tables intersect the group. -/
def logChanges (q : SqlTargets) (log : String) : String :=
  let tables := getAffectedTables q
  let log1 := if intersects tables casesFamily then log ++ "\t" else log
  let log2 := if intersects tables personsFamily then log1 ++ "\n" else log1
  if intersects tables documentsFamily then log2 ++ " " else log2

/-- main_gui.py lines 19-26: the notifier's private read cursor. -/
structure Notifier where
  lastPosition : Nat
deriving DecidableEq, Repr

/-- main_gui.py lines 27-35, `poll_for_changes`: when the log file exists,
seek to the stored offset, read to end-of-file, store the new offset, and
emit the deduplicated characters read when the read was non-empty (the
Python `tuple(set(changes))` is an arbitrarily ordered dedup; it is
modelled as `eraseDups`).  Returns the emission and the updated
notifier. -/
def pollForChanges (fileExists : Bool) (content : String) (n : Notifier) :
    Option (List Char) × Notifier :=
  if fileExists then
    let changes := content.toList.drop n.lastPosition
    let n2 : Notifier := ⟨content.toList.length⟩
    if changes.isEmpty then (none, n2) else (some changes.eraseDups, n2)
  else (none, n)

/-- An INSERT statement targeting Persons, e.g.
`INSERT INTO Persons (last_name, ...) VALUES (...)`: the INSERT regex
captures `Persons`, the other two capture nothing. -/
def personsInsert : SqlTargets := ⟨some "Persons", none, none⟩

/-!
## The search facade's result assembly (src/common/db.py lines 509-525)

`DatabaseAccess.search` runs each compiled query, transposes the row list
(Python `zip(*results)`, which truncates at the shortest row), and for each
(table, return-spec) pair of the compiled query -- skipping `Documents` --
collects the deduplicated values of that table's column.  Row values are
modelled as integers (the `nb` keys selected by the compiled SQL).
-/

/-- The tuple produced per top-level clause by the query compiler:
`(groups touched, sql, positional parameters, per-group return specs)`. -/
structure CompiledQuery where
  tables : List String
  sql : String
  params : List String
  retSpecs : List (List String)
deriving DecidableEq, Repr

def pyZipStarAux : Nat → List (List Int) → List (List Int)
  | 0, _ => []
  | Nat.succ fuel, rows =>
    if rows.any (fun r => r.isEmpty) then []
    else rows.map (fun r => r.headD 0) :: pyZipStarAux fuel (rows.map (fun r => r.tail))

/-- Python `list(zip(*rows))`: the columns of `rows`, truncated at the
shortest row. -/
def pyZipStar (rows : List (List Int)) : List (List Int) :=
  match rows with
  | [] => []
  | r :: rs => pyZipStarAux r.length (r :: rs)

/-- db.py lines 512-523: the inner loop of `search` for one compiled query
and its result rows: empty results are skipped; otherwise each
(table, return-spec) pair at position `i` contributes
`(table, dedup of column i, return spec)` unless the table is
`Documents`.  (Python indexes `transposed_results[i]` directly; `getD`
stands in for that access, which the skip precedes.) -/
def searchAssemble (entry : CompiledQuery) (results : List (List Int)) :
    List (String × List Int × List String) :=
  if results.isEmpty then []
  else
    let transposed := pyZipStar results
    ((entry.tables.zip entry.retSpecs).enum).filterMap (fun p =>
      if p.2.1 == "Documents" then none
      else some (p.2.1, (transposed.getD p.1 []).eraseDups, p.2.2))

/-- db.py lines 509-525, `DatabaseAccess.search`, with the database
abstracted as a function from (sql, params) to result rows. -/
def search (queryFn : String → List String → List (List Int)) :
    List CompiledQuery → List (String × List Int × List String)
  | [] => []
  | e :: rest => searchAssemble e (queryFn e.sql e.params) ++ search queryFn rest

/-- A database stub for concrete evaluation: one row `(1, 2)`. -/
def queryFnStub : String → List String → List (List Int) := fun _ _ => [[1, 2]]

/-- A compiled query touching both Persons and Documents. -/
def personsDocumentsQuery : CompiledQuery :=
  ⟨["Persons", "Documents"], "q", [], [["a"], ["b"]]⟩

/-!
## Search engine (src/common/search_engine.py)

The class attributes `_map`, `_full_map`, `_returns_map` become lookup
functions; `_full_map` and `_returns_map` are keyed by the exact table
tuples that are the values of `_map` (a missing key would raise in Python;
all call sites pass `_map` values).
-/

/-- search_engine.py lines 10-14, `_map`: logical group to physical
tables. -/
def mapGroups : List (String × List String) :=
  [("user", ["Persons", "CasePeople"]), ("case", ["Cases"]), ("docu", ["Documents"])]

/-- search_engine.py lines 15-23, `_full_map`: per table tuple, the
searchable column sets of its tables (empty for a key Python would raise
on; every caller passes a `_map` value). -/
def fullMapCols (tables : List String) : List (List String) :=
  if tables == ["Persons", "CasePeople"] then
    [["last_name", "first_name", "address", "birth_date", "contact_info", "gender",
      "description", "notes", "can_be_lawyer"],
     ["self_represented", "has_external_lawyer", "side"]]
  else if tables == ["Cases"] then [["name", "description", "notes"]]
  else if tables == ["Documents"] then [["name", "description", "notes", "path"]]
  else []

/-- search_engine.py lines 24-28, `_returns_map.get`: per table tuple, the
default return-attribute spec. -/
def returnsMapGet (tables : List String) : Option (List String) :=
  if tables == ["Persons", "CasePeople"] then some ["first_name", "last_name", "can_be_lawyer"]
  else if tables == ["Cases"] then some ["name"]
  else if tables == ["Documents"] then some ["name"]
  else none

/-- Python `self._map.get(main[0])`: `None` keys and unknown names both
yield `None`. -/
def lookupGroup : Option String → Option (List String)
  | none => none
  | some g => (mapGroups.find? (fun p => p.1 == g)).map (fun p => p.2)

/-- The five capture groups of one top-level clause match of
`_table_pattern` (group 6, the sub-term substring, is consumed during
parsing and not stored): group name, return spec, column, operator, search
value. -/
structure MainGroups where
  group : Option String
  retSpec : Option String
  column : Option String
  oper : Option String
  value : String
deriving DecidableEq, Repr

/-- The five capture groups of one `_search_term_pattern` match: either a
full chained sub-term (combinator, column, operator, value; `bare = none`)
or a bare trailing combinator (`bare = some c`, the rest `none`). -/
structure SubTerm where
  comb : Option String
  col : Option String
  oper : Option String
  val : Option String
  bare : Option String
deriving DecidableEq, Repr

/-- Python truthiness of an optional string: `None` and `""` are falsy. -/
def pyTruthy : Option String → Bool
  | none => false
  | some s => !(s == "")

/-- An optional capture that the pattern guarantees present at its use
site. -/
def valStr (o : Option String) : String := o.getD ""

/-- Python f-string rendering of an optional capture (`None` prints as
`None`). -/
def pyFormat : Option String → String
  | none => "None"
  | some s => s

/-- search_engine.py: the per-column table resolution loop
(`for curr_table, columns in zip(...): if column in columns: table =
curr_table`, starting from `table = ""`; the last containing table
wins). -/
def resolveColumnTable (tables : List String) (colSets : List (List String))
    (c : Option String) : String :=
  (tables.zip colSets).foldl (fun acc p =>
    match c with
    | some cc => if p.2.contains cc then p.1 else acc
    | none => acc) ""

/-- The LEFT JOIN fragment built by both query generators:
` LEFT JOIN {t} ON {t0}.nb = {t0.lower().removesuffix('s')}_nb` shaped
text. -/
def leftJoinClause (mainTable other : String) : String :=
  " LEFT JOIN " ++ other ++ " ON " ++ mainTable ++ ".nb = " ++ other ++ "." ++
    removeSuf "s" mainTable.toLower ++ "_nb"

/-- One chained sub-term's condition in `_generate_query` (lines 184-211):
resolve the table, render `REGEXP ?` for `:` and `= ?` otherwise, and
prepend `AND `/`OR ` per the combinator. -/
def termCondition (tables : List String) (colSets : List (List String)) (t : SubTerm) : String :=
  let base := resolveColumnTable tables colSets t.col ++ "." ++ pyFormat t.col ++
    (if t.oper == some ":" then " REGEXP ?" else " = ?")
  if t.comb == some "&" then "AND " ++ base
  else if t.comb == some "|" then "OR " ++ base
  else base

/-- search_engine.py lines 152-216, `_generate_query` (explicit-column
mode).  `none` models the `KeyError` Python raises on
`self._map[input_tuple[0]]` for an unknown or absent group.  The sub-term
loop stops at the first bare combinator (`if term[-1]: break`). -/
def generateQuery (main : MainGroups) (terms : List SubTerm) : Option (String × List String) :=
  match lookupGroup main.group with
  | none => none
  | some tableNames =>
    let tableColumns := fullMapCols tableNames
    let t0 := tableNames.headD ""
    let fromClause := " FROM " ++ t0 ++
      (tableNames.drop 1).foldl (fun acc t => acc ++ leftJoinClause t0 t) ""
    let keptTerms := terms.takeWhile (fun t => !pyTruthy t.bare)
    let initialCond := resolveColumnTable tableNames tableColumns main.column ++ "." ++
      pyFormat main.column ++ (if main.oper == some ":" then " REGEXP ?" else " = ?")
    let conds := initialCond :: keptTerms.map (termCondition tableNames tableColumns)
    let params := main.value.trim :: keptTerms.map (fun t => (valStr t.val).trim)
    some ("SELECT " ++ t0 ++ ".nb" ++ fromClause ++ " WHERE " ++ String.intercalate " " conds,
      params)

/-- The (table, column) pairs of a group's table map in declaration order;
the two nested loops of `_generate_full_query` with their single running
`case_index` traverse exactly this flattened list. -/
def flattenCols (tcs : List (String × List String)) : List (String × String) :=
  tcs.flatMap (fun p => p.2.map (fun c => (p.1, c)))

/-- search_engine.py lines 233-246: the CASE arms of the relevance
expression.  For the column with running index `caseIndex`, the exact-match
arm weighs `length + 2 - caseIndex` and the REGEXP arm weighs
`length - caseIndex`. -/
def caseArms : List (String × String) → Int → Int → List String
  | [], _, _ => []
  | (t, c) :: rest, lng, caseIndex =>
    ("WHEN " ++ t ++ "." ++ c ++ " = ? THEN " ++ toString (lng + 2 - caseIndex)) ::
    ("WHEN " ++ t ++ "." ++ c ++ " REGEXP ? THEN " ++ toString (lng - caseIndex)) ::
    caseArms rest lng (caseIndex + 1)

/-- search_engine.py lines 249-253: one `REGEXP ?` probe per searchable
column, OR-combined in the WHERE clause. -/
def whereProbe (tcs : List (String × List String)) : List String :=
  (flattenCols tcs).map (fun p => p.1 ++ "." ++ p.2 ++ " REGEXP ?")

/-- search_engine.py lines 256-267: the loop over
`additional_search_terms.items()`, producing the rendered conditions and
the parameter values in item order. -/
def additionalParts (tcs : List (String × List String)) :
    List (Option String × (String × Bool × String)) → List String × List String
  | [] => ([], [])
  | (col, (logic, oper, v)) :: rest =>
    let tbl := tcs.foldl (fun acc p =>
      match col with
      | some cc => if p.2.contains cc then p.1 else acc
      | none => acc) ""
    let cond := logic ++ " " ++ tbl ++ "." ++ pyFormat col ++
      (if oper then " REGEXP ?" else " = ?")
    let rest2 := additionalParts tcs rest
    (cond :: rest2.1, v :: rest2.2)

/-- `length = sum(len(cols) for cols in tables_and_columns.values())`. -/
def totalCols (tcs : List (String × List String)) : Nat :=
  (tcs.map (fun p => p.2.length)).sum

/-- search_engine.py lines 218-277, `_generate_full_query` (vague
full-text mode): ranked CASE select, OR-probed WHERE, optional
parenthesised AND/OR extension by the normalized additional terms, ORDER BY
relevance DESC; the parameters are `(length*2 + length)` copies of
`.*term.*` followed by the additional values. -/
def generateFullQuery (tcs : List (String × List String)) (vague : String)
    (extra : List (Option String × (String × Bool × String))) : String × List String :=
  let mainTable := (tcs.headD ("", [])).1
  let fromClause := "FROM " ++ mainTable ++
    (if tcs.length > 1 then
      tcs.foldl (fun acc p => if p.1 == mainTable then acc else acc ++ leftJoinClause mainTable p.1) ""
     else "")
  let selectClause := "SELECT " ++ mainTable ++ ".nb, NULL AS relevance, CASE"
  let lng : Int := (totalCols tcs : Int)
  let caseStatement := String.intercalate " " (caseArms (flattenCols tcs) lng 0) ++
    " ELSE 0 END AS relevance"
  let whereClause := String.intercalate " OR " (whereProbe tcs)
  let parts := additionalParts tcs extra
  let additionalWhere := String.intercalate " " parts.1
  let whereClause2 :=
    if additionalWhere == "" then whereClause
    else "(" ++ whereClause ++ ") " ++ additionalWhere
  (selectClause ++ " " ++ caseStatement ++ " " ++ fromClause ++ " WHERE " ++ whereClause2 ++
     " ORDER BY relevance DESC",
   List.replicate (totalCols tcs * 2 + totalCols tcs) (".*" ++ vague ++ ".*") ++ parts.2)

/-!
### Parsing (src/common/search_engine.py lines 44-111)

The `re` library calls (`finditer`, `match`) are abstracted: a main-pattern
match carries its span over the input, the groups recovered by the
re-match of its text (with the group-6 sub-term substring), and the
sub-pattern matches over that substring.  `_check_consumed_string` /
`_check_consumed_substring` only inspect spans and input length.
-/

structure Span where
  start : Nat
  stop : Nat
deriving DecidableEq, Repr

/-- One `_table_pattern` match: its span over the input, the re-match of
its text (`None` models a failed re-match, which the loop skips), and the
`_search_term_pattern` matches over its group-6 substring. -/
structure MainMatch where
  span : Span
  rematch : Option (MainGroups × String)
  subMatches : List (Span × SubTerm)
deriving DecidableEq, Repr

/-- The shared consumption loop of both checkers: each match must start
where the previous one ended, and the final end must equal the input
length. -/
def consumedFrom : List Span → Nat → Nat → Bool
  | [], lastEnd, len => lastEnd == len
  | s :: rest, lastEnd, len => if s.start != lastEnd then false else consumedFrom rest s.stop len

/-- search_engine.py lines 48-64, `_check_consumed_string`'s consumed flag:
no matches yield `False` (even for empty input). -/
def checkConsumedString (spans : List Span) (len : Nat) : Bool :=
  match spans with
  | [] => false
  | _ => consumedFrom spans 0 len

/-- search_engine.py lines 66-84, `_check_consumed_substring`'s consumed
flag: no matches yield `True` exactly when the input is empty. -/
def checkConsumedSubstring (spans : List Span) (len : Nat) : Bool :=
  match spans with
  | [] => len == 0
  | _ => consumedFrom spans 0 len

/-- search_engine.py lines 92-111: the per-match loop of
`_parse_user_input`.  A failed re-match is skipped; a short substring that
is just a `|` combinator contributes zero sub-terms; otherwise the
substring must itself be fully consumed by the sub-pattern or the whole
parse returns nothing. -/
def parseLoop : List MainMatch → Option (List (MainGroups × List SubTerm))
  | [] => some []
  | m :: rest =>
    match m.rematch with
    | none => parseLoop rest
    | some (g, subStr) =>
      if decide (subStr.length ≤ 3) && subStr.toList.contains '|' then
        (parseLoop rest).map (fun r => (g, []) :: r)
      else if checkConsumedSubstring (m.subMatches.map (fun p => p.1)) subStr.length then
        (parseLoop rest).map (fun r => (g, m.subMatches.map (fun p => p.2)) :: r)
      else none

/-- search_engine.py lines 86-111, `_parse_user_input`: nothing unless the
main matches consume the entire input, then the per-match loop. -/
def parseUserInput (len : Nat) (ms : List MainMatch) :
    Option (List (MainGroups × List SubTerm)) :=
  if checkConsumedString (ms.map (fun m => m.span)) len then parseLoop ms else none

/-- Well-formed `finditer` output: non-empty, in-bounds, ordered,
non-overlapping spans (the two patterns cannot match the empty string:
their value / combinator groups each require at least one character). -/
def spansOkFrom (pos len : Nat) : List Span → Bool
  | [] => true
  | s :: rest =>
    decide (pos ≤ s.start) && decide (s.start < s.stop) && decide (s.stop ≤ len) &&
      spansOkFrom s.stop len rest

def spansOk (spans : List Span) (len : Nat) : Bool := spansOkFrom 0 len spans

/-- Position `i` of the input lies inside one of the spans. -/
def coveredBy (spans : List Span) (i : Nat) : Bool :=
  spans.any (fun s => decide (s.start ≤ i) && decide (i < s.stop))

/-!
### Compilation (src/common/search_engine.py lines 279-364)

`normalized_extra` is a Python dict comprehension keyed by column: a
repeated key keeps its first position but takes the last value.  The dict
is embedded as an association list with exactly those insert semantics.
-/

/-- Python `d[k] = v` on an insertion-ordered dict represented as an
association list: update in place when the key exists, append
otherwise. -/
def pyDictInsert {K V : Type} [BEq K] (d : List (K × V)) (k : K) (v : V) : List (K × V) :=
  if d.any (fun p => p.1 == k) then d.map (fun p => if p.1 == k then (p.1, v) else p)
  else d ++ [(k, v)]

/-- Python `dict(...)` built left-to-right from key/value pairs. -/
def pyDictOf {K V : Type} [BEq K] (l : List (K × V)) : List (K × V) :=
  l.foldl (fun d p => pyDictInsert d p.1 p.2) []

/-- search_engine.py lines 305-308: `normalized_extra`, the dict
comprehension over the unflagged sub-terms, mapping each column to
`("OR"/"AND", operator is ":", value)`. -/
def normalizedExtra (terms : List SubTerm) : List (Option String × (String × Bool × String)) :=
  pyDictOf ((terms.filter (fun t => !pyTruthy t.bare)).map (fun t =>
    (t.col, ((if t.comb == some "|" then "OR" else "AND"), t.oper == some ":", valStr t.val))))

/-- `{k: v for k, v in zip(table, self._full_map[table])}`. -/
def tableMapOf (tables : List String) : List (String × List String) :=
  tables.zip (fullMapCols tables)

/-- search_engine.py lines 331-343: one tuple of the concatenation
rewrite's condition loop -- skipped when flagged as a bare combinator,
otherwise a rendered WHERE condition (`if regex_flag:` is a truthiness
test, so both `:` and `=` render `REGEXP ?`) and the raw value (always
present on unflagged tuples). -/
def mergeWhereItem (tables : List String) (t : SubTerm) : Option (String × String) :=
  if pyTruthy t.bare then none
  else
    let whereStr := resolveColumnTable tables (fullMapCols tables) t.col ++ "." ++
      pyFormat t.col ++ (if pyTruthy t.oper then " REGEXP ?" else " = ?")
    some ((if t.comb == some "|" then "OR " else "AND ") ++ whereStr, valStr t.val)

/-- search_engine.py lines 310-318, the `table is None` fan-out branch for
one group's table tuple: `ret_val = tuple(main[0].split(";")) if main[1]
else self._returns_map.get(table)` (note: it splits the group capture, and
tests the return-spec capture for truthiness); vague clauses compile with
`_generate_full_query`, explicit-column clauses with `_generate_query`
(which raises on the unknown group -- propagated as `none`). -/
def fanOutEntry (main : MainGroups) (terms : List SubTerm) (tables : List String) :
    Option CompiledQuery :=
  let retVal := if pyTruthy main.retSpec then (valStr main.group).splitOn ";"
    else (returnsMapGet tables).getD []
  match (if main.column == none then
          some (generateFullQuery (tableMapOf tables) main.value (normalizedExtra terms))
        else generateQuery main terms) with
  | none => none
  | some q => some ⟨[tables.headD ""], q.1, q.2, [retVal]⟩

/-- search_engine.py lines 300-364: the clause loop of
`get_sql_query_from_user_input`.  `concatTables` is the `concatenate_tables`
flag; `acc` is `returns`.  An unknown or absent group fans out across all
three `_map` values; a known group either appends one compiled query or --
when the previous clause ended in a bare `&` -- merges into the previous
entry via the `_join_query` rewrite, which is abstracted as `joinQuery`.
`none` models a propagated Python exception (`KeyError` from
`_generate_query`, `IndexError` from `returns[-1]`). -/
def compileClauses (joinQuery : String → String → List String → String) :
    List (MainGroups × List SubTerm) → Bool → List CompiledQuery →
      Option (List CompiledQuery)
  | [], _, acc => some acc
  | (main, terms) :: rest, concatTables, acc =>
    let lastTerm : Option String :=
      match terms.getLast? with
      | some t => t.bare
      | none => none
    match lookupGroup main.group with
    | none =>
      match fanOutEntry main terms ["Persons", "CasePeople"],
            fanOutEntry main terms ["Cases"],
            fanOutEntry main terms ["Documents"] with
      | some e1, some e2, some e3 =>
        compileClauses joinQuery rest (if lastTerm == some "&" then true else concatTables)
          (acc ++ [e1, e2, e3])
      | _, _, _ => none
    | some tables =>
      let retVal :=
        match main.retSpec with
        | some r => r.splitOn ";"
        | none => (returnsMapGet tables).getD []
      match (if main.column == none then
              some (generateFullQuery (tableMapOf tables) main.value (normalizedExtra terms))
            else generateQuery main terms) with
      | none => none
      | some q =>
        if concatTables then
          match acc.getLast? with
          | none => none
          | some last =>
            let mainTuple : SubTerm := ⟨some "&", main.column, main.oper, some main.value, none⟩
            let items := (mainTuple :: terms).filterMap (mergeWhereItem tables)
            let merged : CompiledQuery :=
              ⟨last.tables ++ [tables.headD ""],
               joinQuery last.sql (tables.headD "") (items.map (fun p => p.1)),
               last.params ++ items.map (fun p => p.2),
               last.retSpecs ++ [(returnsMapGet tables).getD []]⟩
            compileClauses joinQuery rest (if lastTerm == some "&" then true else false)
              (acc.dropLast ++ [merged])
        else
          compileClauses joinQuery rest (if lastTerm == some "&" then true else concatTables)
            (acc ++ [⟨[tables.headD ""], q.1, q.2, [retVal]⟩])

/-- search_engine.py lines 284-296: the compiled form returned for the
empty input string. -/
def selectEverything : CompiledQuery :=
  ⟨["Persons", "Cases", "Documents"],
   "SELECT Persons.nb, Cases.nb, Documents.nb FROM Persons FULL OUTER JOIN Cases FULL OUTER JOIN Documents",
   [],
   [["first_name", "last_name", "can_be_lawyer"], ["name"], ["name"]]⟩

/-- search_engine.py line 298: the empty-SQL tuple returned for a
non-empty input that the grammar rejects. -/
def noMatchSentinel : CompiledQuery :=
  ⟨["Persons", "Cases", "Documents"], "", [], [[], [], []]⟩

/-- search_engine.py lines 279-364, `get_sql_query_from_user_input`: parse,
handle the two no-parse sentinels, then compile the clause list. -/
def getSqlQueryFromUserInput (joinQuery : String → String → List String → String)
    (userInput : String) (ms : List MainMatch) : Option (List CompiledQuery) :=
  match parseUserInput userInput.length ms with
  | none => if userInput == "" then some [selectEverything] else some [noMatchSentinel]
  | some parsed => compileClauses joinQuery parsed false []

/-!
### Specification-side helpers for the parameter-order and weight claims
-/

/-- The distinct elements of a list in order of first occurrence. -/
def firstKeys {K : Type} [BEq K] : List K → List K
  | [] => []
  | k :: ks => k :: (firstKeys ks).filter (fun x => !(x == k))

/-- The value of the last pair with the given key. -/
def lastValFor {K V : Type} [BEq K] [Inhabited V] (l : List (K × V)) (k : K) : V :=
  (((l.filter (fun p => p.1 == k)).map (fun p => p.2)).getLast?).getD default

/-- Keyed deduplication described independently of the dict embedding: for
each distinct key in order of first occurrence, the last value given for
that key. -/
def specDedup {K V : Type} [BEq K] [Inhabited V] (l : List (K × V)) : List (K × V) :=
  (firstKeys (l.map (fun p => p.1))).map (fun k => (k, lastValFor l k))

/-- Modelled from the claim: exact-match weight `totalColumns*2 + 2 -
index` for the attribute at 0-based position `index`. -/
def claimedExactWeight (total idx : Int) : Int := total * 2 + 2 - idx

/-- Modelled from the claim: `3N` copies of `.*term.*` followed by the
sub-term literal values in input order. -/
def claimedVagueParams (n : Nat) (term : String) (subVals : List String) : List String :=
  List.replicate (3 * n) (".*" ++ term ++ ".*") ++ subVals

/-!
### Concrete fixtures for counterexamples and witnesses
-/

/-- A stub for the abstracted `_join_query` rewrite (the claims below never
reach the concatenation branch). -/
def joinQueryStub : String → String → List String → String := fun q _ _ => q

/-- The single `_table_pattern` match on the input `foo: Jane`: span
`[0, 9)`, captures `("foo", None, None, ":", "Jane")`, empty group-6
substring, no sub-term matches. -/
def fooJaneMatch : MainMatch :=
  ⟨⟨0, 9⟩, some (⟨some "foo", none, none, some ":", "Jane"⟩, ""), []⟩

/-- A parsed vague clause on the `case` group whose two chained sub-terms
name the same column: the clause part of
`case: x & {name}: a & {name}: b` (group-4 sub-term captures keep a
trailing space before a following combinator). -/
def dupColClause : MainGroups := ⟨some "case", none, none, some ":", "x "⟩

def dupColTerms : List SubTerm :=
  [⟨some "&", some "name", some ":", some "a ", none⟩,
   ⟨some "&", some "name", some ":", some "b", none⟩]

/-- A match list leaving position 0 of a length-2 input unconsumed. -/
def gapMatch : MainMatch := ⟨⟨1, 2⟩, none, []⟩

/-!
## Theorems
-/

theorem toList_append (a b : String) : (a ++ b).toList = a.toList ++ b.toList :=
  String.data_append a b

/-!
### C1 -- the facade's read path and the lock discipline

The claim says every facade read creates only the advisory read marker,
never the write-exclusion marker, and is never blocked by another
concurrent read.  The code refutes this: `DatabaseAccess._query` wraps
every read in `acquire_write_lock`, so a read waits on the write marker,
creates the write marker, appends nothing to the read marker, and a second
concurrent read is blocked while the first holds the marker.
-/

/-- C1 counterexample: starting two facade reads (`_query`) on a free
filesystem and letting the first pass its gate and acquire, the write
marker exists, the read-marker file received no append, and the second
read cannot take a single step -- a read created the write-exclusion
marker, created no read marker, and blocked a concurrent read. -/
theorem query_read_lock_counterexample :
    (runSched twoQueries [false, false]).fs.writeMarker = true
    ∧ (runSched twoQueries [false, false]).fs.readAppends = 0
    ∧ (runSched twoQueries [false, false, true]).p2 = queryLockScope :=
  ⟨rfl, rfl, rfl⟩

/-- C1 (amended): every facade read (`_query`) acquires the global write
lock, not the read-lock discipline: started on a filesystem whose write
marker is absent it runs to completion leaving the write marker absent and
the read-marker file untouched, the write-exclusion marker exists right
after its acquisition steps, and its wait gate blocks whenever the write
marker is held -- in particular when held by another read. -/
theorem query_read_uses_write_lock :
    ∀ s : LockFS, s.writeMarker = false →
      runSolo s queryLockScope = some ⟨false, s.readAppends⟩
      ∧ runSolo s [LockInstr.waitNoWrite, LockInstr.createWrite] = some ⟨true, s.readAppends⟩
      ∧ (∀ t : LockFS, t.writeMarker = true → stepInstr t LockInstr.waitNoWrite = none) := by
  intro s h
  obtain ⟨w, r⟩ := s
  simp only at h
  subst h
  refine ⟨rfl, rfl, ?_⟩
  intro t ht
  obtain ⟨w2, r2⟩ := t
  simp only at ht
  subst ht
  rfl

theorem query_read_uses_write_lock_witness :
    runSolo ⟨false, 7⟩ queryLockScope = some ⟨false, 7⟩ :=
  (query_read_uses_write_lock ⟨false, 7⟩ rfl).1

/-!
### C4 -- the write marker is released on every exit path
-/

/-- C4: a write operation started on a filesystem with the write marker
absent creates the marker on acquisition (it exists right after the
acquisition steps), and on both exit paths -- the wrapped statement
returning normally or raising -- the `finally` clause leaves the marker
absent. -/
theorem write_lock_released_all_paths :
    ∀ (s : LockFS) (raises : Bool), s.writeMarker = false →
      runSolo s (writeLockWith raises) = some ⟨false, s.readAppends⟩
      ∧ runSolo s [LockInstr.waitNoWrite, LockInstr.createWrite] = some ⟨true, s.readAppends⟩ := by
  intro s raises h
  obtain ⟨w, r⟩ := s
  simp only at h
  subst h
  cases raises with
  | false => exact ⟨rfl, rfl⟩
  | true => exact ⟨rfl, rfl⟩

theorem write_lock_released_all_paths_witness :
    runSolo ⟨false, 3⟩ (writeLockWith true) = some ⟨false, 3⟩ :=
  (write_lock_released_all_paths ⟨false, 3⟩ true rfl).1

/-!
### C6 -- the REGEXP predicate
-/

/-- C6: for every pattern, value and regex-engine behaviour (including
raising), `_regexp` behaves exactly as the specification describes: null
yields false, the `.*` wrapper is stripped and routes to a full-string
match (quote-wrapped remainder) or case-insensitive search, a
quote-wrapped pattern is full-matched, anything else plainly searched, and
an exception yields no match. -/
theorem regexp_dispatch_matches_description :
    ∀ (E : RegexEngine) (p : String) (v : Option String),
      regexpImpl E p v = regexpDescribed E p v := by
  intro E p v
  cases v with
  | none => rfl
  | some s => rfl

/-!
### C7 -- change log and notifier round trip
-/

/-- C7: a mutating statement targeting `Persons` appends exactly the
single Persons marker (a newline) to the change log; a poll by a notifier
whose cursor is at the previous end-of-file emits exactly that marker,
advances the cursor to the new end-of-file, and a second poll with no
intervening mutation emits nothing. -/
theorem persons_mutation_changelog_roundtrip :
    ∀ (log0 : String) (n : Notifier), n.lastPosition = log0.toList.length →
      logChanges personsInsert log0 = log0 ++ "\n"
      ∧ (pollForChanges true (log0 ++ "\n") n).1 = some ['\n']
      ∧ (pollForChanges true (log0 ++ "\n") n).2.lastPosition = (log0 ++ "\n").toList.length
      ∧ (pollForChanges true (log0 ++ "\n") (pollForChanges true (log0 ++ "\n") n).2).1 = none := by
  intro log0 n h
  have hdrop : (log0 ++ "\n").toList.drop n.lastPosition = ['\n'] := by
    rw [h, toList_append]
    exact List.drop_left log0.toList "\n".toList
  have hc1 : intersects (getAffectedTables personsInsert) casesFamily = false := rfl
  have hc2 : intersects (getAffectedTables personsInsert) personsFamily = true := rfl
  have hc3 : intersects (getAffectedTables personsInsert) documentsFamily = false := rfl
  refine ⟨?_, ?_, ?_, ?_⟩
  · simp [logChanges, hc1, hc2, hc3]
  · unfold pollForChanges
    rw [hdrop]
    rfl
  · unfold pollForChanges
    rw [hdrop]
    rfl
  · unfold pollForChanges
    rw [hdrop]
    simp [List.drop_length]

theorem persons_mutation_changelog_roundtrip_witness :
    logChanges personsInsert "" = "" ++ "\n"
    ∧ (pollForChanges true ("" ++ "\n") (⟨0⟩ : Notifier)).1 = some ['\n']
    ∧ (pollForChanges true ("" ++ "\n") (⟨0⟩ : Notifier)).2.lastPosition = ("" ++ "\n").toList.length
    ∧ (pollForChanges true ("" ++ "\n") (pollForChanges true ("" ++ "\n") (⟨0⟩ : Notifier)).2).1 = none :=
  persons_mutation_changelog_roundtrip "" ⟨0⟩ rfl

/-!
### C10 -- the facade's search never returns a Documents entry
-/

/-- C10: no entry of the tuple assembled by `DatabaseAccess.search` names
the `Documents` table, whatever the compiled queries and whatever rows the
database returns -- Documents columns are unconditionally skipped. -/
theorem search_skips_documents :
    ∀ (queryFn : String → List String → List (List Int)) (compiled : List CompiledQuery)
      (entry : String × List Int × List String),
      entry ∈ search queryFn compiled → entry.1 ≠ "Documents" := by
  intro queryFn compiled entry hmem
  induction compiled with
  | nil => simp [search] at hmem
  | cons e rest ih =>
    rw [search, List.mem_append] at hmem
    rcases hmem with hmem | hmem
    · unfold searchAssemble at hmem
      split at hmem
      · simp at hmem
      · rw [List.mem_filterMap] at hmem
        obtain ⟨p, _, hp⟩ := hmem
        split at hp
        · exact absurd hp (by simp)
        · rename_i hne
          injection hp with h2
          subst h2
          simpa using hne
    · exact ih hmem

theorem search_skips_documents_witness :
    ("Persons", ([1] : List Int), ["a"]).1 ≠ "Documents" :=
  search_skips_documents queryFnStub [personsDocumentsQuery] ("Persons", [1], ["a"]) (by decide)

/-!
### C2 -- relevance CASE weights
-/

theorem caseArms_getElem :
    ∀ (cols : List (String × String)) (lng caseIndex : Int) (i : Nat) (t c : String),
      cols[i]? = some (t, c) →
      (caseArms cols lng caseIndex)[2 * i]? =
        some ("WHEN " ++ t ++ "." ++ c ++ " = ? THEN " ++ toString (lng + 2 - (caseIndex + i)))
      ∧ (caseArms cols lng caseIndex)[2 * i + 1]? =
        some ("WHEN " ++ t ++ "." ++ c ++ " REGEXP ? THEN " ++ toString (lng - (caseIndex + i))) := by
  intro cols
  induction cols with
  | nil => intro lng caseIndex i t c hget; simp at hget
  | cons p rest ih =>
    intro lng caseIndex i t c hget
    obtain ⟨t0, c0⟩ := p
    cases i with
    | zero =>
      rw [List.getElem?_cons_zero] at hget
      injection hget with hpair
      injection hpair with h1 h2
      subst h1
      subst h2
      constructor
      · simp [caseArms]
      · simp [caseArms]
    | succ j =>
      rw [List.getElem?_cons_succ] at hget
      have hih := ih lng (caseIndex + 1) j t c hget
      have harith : lng + 2 - (caseIndex + 1 + (j : Int)) =
          lng + 2 - (caseIndex + ((j + 1 : Nat) : Int)) := by push_cast; ring
      have harith2 : lng - (caseIndex + 1 + (j : Int)) =
          lng - (caseIndex + ((j + 1 : Nat) : Int)) := by push_cast; ring
      rw [harith] at hih
      rw [harith2] at hih
      have hidx1 : 2 * (j + 1) = 2 * j + 1 + 1 := by ring
      have hidx2 : 2 * (j + 1) + 1 = 2 * j + 1 + 1 + 1 := by ring
      constructor
      · rw [hidx1]
        simp only [caseArms, List.getElem?_cons_succ]
        exact hih.1
      · rw [hidx2]
        simp only [caseArms, List.getElem?_cons_succ]
        exact hih.2

theorem generateFullQuery_orderBy :
    ∀ (tcs : List (String × List String)) (vague : String)
      (extra : List (Option String × (String × Bool × String))),
      List.IsSuffix (" ORDER BY relevance DESC".toList)
        ((generateFullQuery tcs vague extra).1.toList) := by
  intro tcs vague extra
  have hsplit : ∃ pre : String,
      (generateFullQuery tcs vague extra).1 = pre ++ " ORDER BY relevance DESC" := ⟨_, rfl⟩
  obtain ⟨pre, hpre⟩ := hsplit
  exact ⟨pre.toList, by rw [hpre, toList_append]⟩

/-- C2 counterexample: for the `case` group (3 searchable columns), the
compiled CASE expression scores an exact match on the attribute at index 0
with weight 5 = totalColumns + 2 - index, not with the claimed
totalColumns*2 + 2 - index = 8; the full compiled SQL shows the arm. -/
theorem vague_case_weights_counterexample :
    (caseArms (flattenCols [("Cases", ["name", "description", "notes"])]) 3 0)[0]? =
      some "WHEN Cases.name = ? THEN 5"
    ∧ (generateFullQuery [("Cases", ["name", "description", "notes"])] "x" []).1 =
      "SELECT Cases.nb, NULL AS relevance, CASE WHEN Cases.name = ? THEN 5 WHEN Cases.name REGEXP ? THEN 3 WHEN Cases.description = ? THEN 4 WHEN Cases.description REGEXP ? THEN 2 WHEN Cases.notes = ? THEN 3 WHEN Cases.notes REGEXP ? THEN 1 ELSE 0 END AS relevance FROM Cases WHERE Cases.name REGEXP ? OR Cases.description REGEXP ? OR Cases.notes REGEXP ? ORDER BY relevance DESC"
    ∧ ("WHEN Cases.name = ? THEN " ++ toString (claimedExactWeight 3 0)) ≠
      "WHEN Cases.name = ? THEN 5" := by
  refine ⟨rfl, rfl, ?_⟩
  decide

/-- C2 (amended): for every vague clause over a group whose tables have
`totalColumns` searchable attributes, the compiled relevance CASE arms
score the attribute at 0-based position `index` at weight
`totalColumns + 2 - index` for an exact match and `totalColumns - index`
for a regex match (else 0 via the ELSE arm of the construction), and the
compiled SQL ends with `ORDER BY relevance DESC`. -/
theorem vague_case_weights :
    ∀ (tcs : List (String × List String)) (vague : String)
      (extra : List (Option String × (String × Bool × String))) (i : Nat) (t c : String),
      (flattenCols tcs)[i]? = some (t, c) →
      (caseArms (flattenCols tcs) (totalCols tcs : Int) 0)[2 * i]? =
        some ("WHEN " ++ t ++ "." ++ c ++ " = ? THEN " ++
          toString ((totalCols tcs : Int) + 2 - (i : Int)))
      ∧ (caseArms (flattenCols tcs) (totalCols tcs : Int) 0)[2 * i + 1]? =
        some ("WHEN " ++ t ++ "." ++ c ++ " REGEXP ? THEN " ++
          toString ((totalCols tcs : Int) - (i : Int)))
      ∧ List.IsSuffix (" ORDER BY relevance DESC".toList)
          ((generateFullQuery tcs vague extra).1.toList) := by
  intro tcs vague extra i t c hget
  have h := caseArms_getElem (flattenCols tcs) (totalCols tcs : Int) 0 i t c hget
  have e1 : (totalCols tcs : Int) + 2 - (0 + (i : Int)) = (totalCols tcs : Int) + 2 - (i : Int) := by
    ring
  have e2 : (totalCols tcs : Int) - (0 + (i : Int)) = (totalCols tcs : Int) - (i : Int) := by
    ring
  rw [e1, e2] at h
  exact ⟨h.1, h.2, generateFullQuery_orderBy tcs vague extra⟩

theorem vague_case_weights_witness :
    (caseArms (flattenCols [("Cases", ["name", "description", "notes"])])
        (totalCols [("Cases", ["name", "description", "notes"])] : Int) 0)[2 * 0]? =
      some ("WHEN " ++ "Cases" ++ "." ++ "name" ++ " = ? THEN " ++
        toString ((totalCols [("Cases", ["name", "description", "notes"])] : Int) + 2 - ((0 : Nat) : Int)))
    ∧ (caseArms (flattenCols [("Cases", ["name", "description", "notes"])])
        (totalCols [("Cases", ["name", "description", "notes"])] : Int) 0)[2 * 0 + 1]? =
      some ("WHEN " ++ "Cases" ++ "." ++ "name" ++ " REGEXP ? THEN " ++
        toString ((totalCols [("Cases", ["name", "description", "notes"])] : Int) - ((0 : Nat) : Int)))
    ∧ List.IsSuffix (" ORDER BY relevance DESC".toList)
        ((generateFullQuery [("Cases", ["name", "description", "notes"])] "x" []).1.toList) :=
  vague_case_weights [("Cases", ["name", "description", "notes"])] "x" [] 0 "Cases" "name" rfl

/-!
### C5 -- parsing rejects partial matches
-/

theorem coveredBy_cons (s : Span) (rest : List Span) (i : Nat) :
    coveredBy (s :: rest) i =
      ((decide (s.start ≤ i) && decide (i < s.stop)) || coveredBy rest i) := rfl

theorem consumedFrom_covers :
    ∀ (spans : List Span) (pos len : Nat), consumedFrom spans pos len = true →
      ∀ i, pos ≤ i → i < len → coveredBy spans i = true := by
  intro spans
  induction spans with
  | nil =>
    intro pos len h i h1 h2
    simp [consumedFrom] at h
    omega
  | cons s rest ih =>
    intro pos len h i h1 h2
    rw [consumedFrom] at h
    split at h
    · exact absurd h (by simp)
    · rename_i hstart
      have hsp : s.start = pos := by simpa using hstart
      rw [coveredBy_cons]
      by_cases hlt : i < s.stop
      · have : (decide (s.start ≤ i) && decide (i < s.stop)) = true := by
          simp
          omega
        rw [this]
        simp
      · have := ih s.stop len h i (by omega) h2
        rw [this]
        simp

/-- C5: the parse of `_parse_user_input` yields a clause list only when
the matches of the grammar tile the entire input -- whenever it returns
some result every input position is covered by a match, and whenever some
position of the input is left unconsumed it returns nothing. -/
theorem parse_requires_full_consumption :
    ∀ (len : Nat) (ms : List MainMatch),
      (∀ r, parseUserInput len ms = some r →
        ∀ i, i < len → coveredBy (ms.map (fun m => m.span)) i = true)
      ∧ ((∃ i, i < len ∧ coveredBy (ms.map (fun m => m.span)) i = false) →
        parseUserInput len ms = none) := by
  intro len ms
  have hmain : ∀ r, parseUserInput len ms = some r →
      ∀ i, i < len → coveredBy (ms.map (fun m => m.span)) i = true := by
    intro r hr i hi
    unfold parseUserInput at hr
    split at hr
    · rename_i hcheck
      rcases hms : ms.map (fun m => m.span) with _ | ⟨s, rest⟩
      · rw [hms] at hcheck
        exact absurd hcheck (by simp [checkConsumedString])
      · rw [hms] at hcheck
        have hcons : consumedFrom (s :: rest) 0 len = true := hcheck
        rw [hms]
        exact consumedFrom_covers (s :: rest) 0 len hcons i (Nat.zero_le i) hi
    · exact Option.noConfusion hr
  refine ⟨hmain, ?_⟩
  rintro ⟨i, hi, hcov⟩
  cases hp : parseUserInput len ms with
  | none => rfl
  | some r => exact absurd (hmain r hp i hi) (by simp [hcov])

theorem parse_requires_full_consumption_witness :
    parseUserInput 2 [gapMatch] = none :=
  (parse_requires_full_consumption 2 [gapMatch]).2 ⟨0, by decide, by decide⟩

/-!
### C8 -- the empty input compiles to "select everything"
-/

/-- C8: for the empty input string and any well-formed match data (the
patterns cannot match inside a length-0 input, so the match list is
forced empty), the compiler returns the single select-everything form:
all three groups, the FULL OUTER JOIN select, no parameters, and each
group's default return-attribute spec. -/
theorem empty_input_selects_everything :
    ∀ (joinQuery : String → String → List String → String) (ms : List MainMatch),
      spansOk (ms.map (fun m => m.span)) 0 = true →
      getSqlQueryFromUserInput joinQuery "" ms = some [selectEverything] := by
  intro jq ms h
  cases ms with
  | nil => rfl
  | cons m rest =>
    exfalso
    simp [spansOk, spansOkFrom] at h
    omega

theorem empty_input_selects_everything_witness :
    getSqlQueryFromUserInput joinQueryStub "" [] = some [selectEverything] :=
  empty_input_selects_everything joinQueryStub [] rfl

/-!
### C9 -- a clause naming an unknown group

The claim says an unknown group is rejected at compile time.  The code
instead takes `self._map.get(main[0]) is None` to mean "no table
specified" and fans the clause out across all three groups.
-/

theorem fanOutEntry_vague (main : MainGroups) (terms : List SubTerm) (tables : List String)
    (h : main.column = none) :
    fanOutEntry main terms tables =
      some ⟨[tables.headD ""],
        (generateFullQuery (tableMapOf tables) main.value (normalizedExtra terms)).1,
        (generateFullQuery (tableMapOf tables) main.value (normalizedExtra terms)).2,
        [if pyTruthy main.retSpec then (valStr main.group).splitOn ";"
         else (returnsMapGet tables).getD []]⟩ := by
  unfold fanOutEntry
  rw [h]
  simp

/-- C9 counterexample: the input `foo: Jane` names the unknown group
`foo`, yet the compiler does not reject it -- it produces three compiled
queries, one against each of Persons, Cases and Documents. -/
theorem unknown_group_fans_out_counterexample :
    lookupGroup (some "foo") = none
    ∧ (getSqlQueryFromUserInput joinQueryStub "foo: Jane" [fooJaneMatch]).map
        (fun l => l.map (fun e => e.tables)) = some [["Persons"], ["Cases"], ["Documents"]] :=
  ⟨rfl, by decide⟩

/-- C9 (amended): a clause naming a group outside user/case/docu is not
rejected at compile time -- with no explicit column it is treated exactly
like a group-less clause and compiled against all three groups (fan-out),
one compiled query per group.  (With an explicit column the compiler
instead raises a lookup error.) -/
theorem unknown_group_fans_out :
    ∀ (joinQuery : String → String → List String → String)
      (main : MainGroups) (terms : List SubTerm),
      lookupGroup main.group = none → main.column = none →
      (compileClauses joinQuery [(main, terms)] false []).map (fun l => l.map (fun e => e.tables)) =
        some [["Persons"], ["Cases"], ["Documents"]] := by
  intro jq main terms h1 h2
  simp only [compileClauses, h1,
    fanOutEntry_vague main terms ["Persons", "CasePeople"] h2,
    fanOutEntry_vague main terms ["Cases"] h2,
    fanOutEntry_vague main terms ["Documents"] h2]
  rfl

theorem unknown_group_fans_out_witness :
    (compileClauses joinQueryStub
        [(⟨some "nah", none, none, some ":", "Jane"⟩, ([] : List SubTerm))] false []).map
      (fun l => l.map (fun e => e.tables)) = some [["Persons"], ["Cases"], ["Documents"]] :=
  unknown_group_fans_out joinQueryStub ⟨some "nah", none, none, some ":", "Jane"⟩ [] rfl rfl

/-!
### C3 -- vague-clause parameter lists

The Python dict comprehension `normalized_extra` deduplicates the chained
sub-terms by column before their values are appended to the parameter
list.  The lemmas below characterise the dict embedding independently:
first-occurrence key order, last value per key.
-/

theorem pyDictOf_append {K V : Type} [BEq K] (l : List (K × V)) (p : K × V) :
    pyDictOf (l ++ [p]) = pyDictInsert (pyDictOf l) p.1 p.2 := by
  unfold pyDictOf
  rw [List.foldl_append]
  rfl

theorem mem_firstKeys {K : Type} [BEq K] [LawfulBEq K] (ks : List K) (k : K) :
    k ∈ firstKeys ks ↔ k ∈ ks := by
  induction ks with
  | nil => simp [firstKeys]
  | cons k0 ks ih =>
    by_cases h : k = k0
    · subst h; simp [firstKeys]
    · simp [firstKeys, List.mem_filter, h, ih]

theorem firstKeys_cons {K : Type} [BEq K] (k0 : K) (ks : List K) :
    firstKeys (k0 :: ks) = k0 :: (firstKeys ks).filter (fun x => !(x == k0)) := rfl

theorem firstKeys_append_not_mem {K : Type} [BEq K] [LawfulBEq K] (ks : List K) (k : K)
    (h : ¬ k ∈ ks) : firstKeys (ks ++ [k]) = firstKeys ks ++ [k] := by
  induction ks with
  | nil => rfl
  | cons k0 ks ih =>
    have hne : k ≠ k0 := fun e => h (e ▸ List.mem_cons_self k0 ks)
    have hks : ¬ k ∈ ks := fun m => h (List.mem_cons_of_mem k0 m)
    rw [List.cons_append, firstKeys_cons, ih hks, firstKeys_cons, List.filter_append,
      List.cons_append]
    congr 1
    congr 1
    simp [hne]

theorem firstKeys_append_mem {K : Type} [BEq K] [LawfulBEq K] (ks : List K) (k : K)
    (h : k ∈ ks) : firstKeys (ks ++ [k]) = firstKeys ks := by
  induction ks with
  | nil => simp at h
  | cons k0 ks ih =>
    by_cases h0 : k = k0
    · subst h0
      by_cases hks : k ∈ ks
      · rw [List.cons_append, firstKeys_cons, ih hks, firstKeys_cons]
      · rw [List.cons_append, firstKeys_cons, firstKeys_append_not_mem ks k hks,
          List.filter_append, firstKeys_cons]
        simp
    · have hks : k ∈ ks := (List.mem_cons.mp h).resolve_left h0
      rw [List.cons_append, firstKeys_cons, ih hks, firstKeys_cons]

theorem lastValFor_append_self {K V : Type} [BEq K] [LawfulBEq K] [Inhabited V]
    (l : List (K × V)) (k : K) (v : V) : lastValFor (l ++ [(k, v)]) k = v := by
  unfold lastValFor
  simp [List.filter_append, List.getLast?_concat]

theorem lastValFor_append_ne {K V : Type} [BEq K] [LawfulBEq K] [Inhabited V]
    (l : List (K × V)) (k k2 : K) (v : V) (h : k2 ≠ k) :
    lastValFor (l ++ [(k, v)]) k2 = lastValFor l k2 := by
  unfold lastValFor
  have hf : (((k, v) : K × V).1 == k2) = false := by
    simp
    exact Ne.symm h
  simp [List.filter_append, hf]

theorem pyDictOf_eq_specDedup {K V : Type} [BEq K] [LawfulBEq K] [Inhabited V]
    (l : List (K × V)) : pyDictOf l = specDedup l := by
  induction l using List.reverseRecOn with
  | nil => rfl
  | append_singleton l p ih =>
    obtain ⟨k, v⟩ := p
    rw [pyDictOf_append, ih]
    unfold specDedup pyDictInsert
    by_cases hk : k ∈ l.map (fun q => q.1)
    · have hany : ((firstKeys (l.map (fun q => q.1))).map
          (fun k2 => (k2, lastValFor l k2))).any (fun q => q.1 == k) = true := by
        rw [List.any_eq_true]
        exact ⟨(k, lastValFor l k),
          List.mem_map.mpr ⟨k, (mem_firstKeys _ _).mpr hk, rfl⟩, by simp⟩
      rw [if_pos hany]
      simp only [List.map_append, List.map_cons, List.map_nil]
      rw [firstKeys_append_mem _ _ hk]
      rw [List.map_map]
      apply List.map_congr_left
      intro k2 hk2
      by_cases he : k2 = k
      · subst he
        simp [lastValFor_append_self]
      · simp [he, lastValFor_append_ne _ _ _ _ he]
    · have hnany : ¬(((firstKeys (l.map (fun q => q.1))).map
          (fun k2 => (k2, lastValFor l k2))).any (fun q => q.1 == k) = true) := by
        rw [List.any_eq_true]
        rintro ⟨q, hq, hbeq⟩
        obtain ⟨k2, hk2, rfl⟩ := List.mem_map.mp hq
        exact hk (beq_iff_eq.mp hbeq ▸ (mem_firstKeys _ _).mp hk2)
      rw [if_neg hnany]
      simp only [List.map_append, List.map_cons, List.map_nil]
      rw [firstKeys_append_not_mem _ _ hk]
      rw [List.map_append]
      congr 1
      · apply List.map_congr_left
        intro k2 hk2
        have hne : k2 ≠ k := fun e => hk (e ▸ (mem_firstKeys _ _).mp hk2)
        simp [lastValFor_append_ne _ _ _ _ hne]
      · simp [lastValFor_append_self]

theorem additionalParts_snd (tcs : List (String × List String)) :
    ∀ l : List (Option String × (String × Bool × String)),
      (additionalParts tcs l).2 = l.map (fun p => p.2.2.2) := by
  intro l
  induction l with
  | nil => rfl
  | cons p rest ih =>
    obtain ⟨col, logic, oper, v⟩ := p
    simp only [additionalParts, List.map_cons]
    rw [ih]

/-- C3 counterexample: for the vague clause of
`case: x & \x7bname\x7d: a & \x7bname\x7d: b` -- whose two chained
sub-terms name the same column -- the compiled parameter list is the nine
regex copies followed only by `"b"` (the dict normalization keeps one value
per column), not, as claimed, by the sub-term values `"a "`, `"b"` in input
order. -/
theorem vague_params_shape_counterexample :
    (compileClauses joinQueryStub [(dupColClause, dupColTerms)] false []).map
      (fun l => l.map (fun e => e.params)) =
      some [List.replicate 9 ".*x .*" ++ ["b"]]
    ∧ (compileClauses joinQueryStub [(dupColClause, dupColTerms)] false []).map
        (fun l => l.map (fun e => e.params)) ≠
      some [claimedVagueParams 3 "x " ["a ", "b"]] := by
  constructor
  · decide
  · decide

/-- C3 (amended): for every vague clause over a known group with N
searchable columns in total, the compiled parameter list is exactly 3N
copies of `.*term.*` followed by the values of the clause's chained
sub-terms after per-column deduplication -- for each distinct column in
order of first occurrence, the last value supplied for that column.  (When
all sub-term columns are distinct this is exactly the input order.) -/
theorem vague_params_shape :
    ∀ (joinQuery : String → String → List String → String)
      (main : MainGroups) (terms : List SubTerm) (tables : List String),
      lookupGroup main.group = some tables → main.column = none →
      (compileClauses joinQuery [(main, terms)] false []).map (fun l => l.map (fun e => e.params)) =
        some [List.replicate (3 * totalCols (tableMapOf tables)) (".*" ++ main.value ++ ".*")
          ++ (specDedup ((terms.filter (fun t => !pyTruthy t.bare)).map (fun t =>
                (t.col, ((if t.comb == some "|" then "OR" else "AND"),
                  t.oper == some ":", valStr t.val))))).map (fun p => p.2.2.2)] := by
  intro jq main terms tables h1 h2
  simp only [compileClauses, h1, h2, beq_self_eq_true, if_true, Bool.false_eq_true,
    if_false, Option.map_some, List.map_cons, List.map_nil, List.nil_append]
  unfold generateFullQuery
  simp only []
  rw [additionalParts_snd]
  unfold normalizedExtra
  rw [pyDictOf_eq_specDedup]
  have hcount : totalCols (tableMapOf tables) * 2 + totalCols (tableMapOf tables) =
      3 * totalCols (tableMapOf tables) := by ring
  rw [hcount]
  rfl

theorem vague_params_shape_witness :
    (compileClauses joinQueryStub
        [(⟨some "case", none, none, some ":", "y"⟩, ([] : List SubTerm))] false []).map
      (fun l => l.map (fun e => e.params)) = some [List.replicate 9 ".*y.*"] := by
  have h := vague_params_shape joinQueryStub ⟨some "case", none, none, some ":", "y"⟩ [] ["Cases"]
    rfl rfl
  simpa using h

end CurlySniffle
